import Mathlib

/-!
Shallow embedding of the conversational tool-orchestration core of the
ai-agent-hub backend (src/ai-agent-hub/backend/server.js), together with
theorems settling the frozen claims about it.

JS strings are modelled as `List Char`; JS `Map` objects (which iterate in
insertion order) are modelled as insertion-ordered association lists with
first-key-wins lookup.  Byte buffers are `List Nat` with every element < 256.
-/

set_option maxRecDepth 4096

abbrev Chars := List Char

/-- Converts a Lean string literal into the `List Char` representation used
throughout the embedding. -/
def str (s : String) : Chars := s.data

/-- The CRLF line separator used by the mail builders (server.js line 57). -/
def CRLF : Chars := ['\r', '\n']

/-- `List.foldr append` - concatenation of a list of strings, used for modelling
JS string accumulation (`attachmentParts +=` in server.js lines 114-123). -/
def concatAll {α : Type} : List (List α) → List α
  | [] => []
  | l :: rest => l ++ concatAll rest

/-- `Array.prototype.join(sep)` on strings. -/
def joinWith (sep : Chars) : List Chars → Chars
  | [] => []
  | [l] => l
  | l :: rest => l ++ sep ++ joinWith sep rest

-- ------------------------------------------------------------------
-- JS `Map` model: insertion-ordered association list.
-- ------------------------------------------------------------------

/-- `Map.prototype.get`. -/
def mapGet {α : Type} : List (String × α) → String → Option α
  | [], _ => none
  | (k', v) :: rest, k => if k' = k then some v else mapGet rest k

/-- `Map.prototype.has`. -/
def mapHas {α : Type} (m : List (String × α)) (k : String) : Bool :=
  (mapGet m k).isSome

/-- `Map.prototype.set`: updates an existing key in place (keeping its
position in iteration order) or appends a new entry at the end. -/
def mapSet {α : Type} : List (String × α) → String → α → List (String × α)
  | [], k, v => [(k, v)]
  | (k', v') :: rest, k, v =>
    if k' = k then (k, v) :: rest else (k', v') :: mapSet rest k v

/-- `Map.prototype.delete`. -/
def mapDelete {α : Type} : List (String × α) → String → List (String × α)
  | [], _ => []
  | (k', v') :: rest, k =>
    if k' = k then rest else (k', v') :: mapDelete rest k

/-- Well-formedness of the map model: keys are distinct, as is invariant for
a real JS `Map` (every state reachable through `set`/`delete` satisfies it). -/
def mapWF {α : Type} (m : List (String × α)) : Prop :=
  (m.map Prod.fst).Nodup

theorem mapGet_set_self {α : Type} (m : List (String × α)) (k : String) (v : α) :
    mapGet (mapSet m k v) k = some v := by
  induction m with
  | nil => simp [mapSet, mapGet]
  | cons p rest ih =>
    obtain ⟨k', v'⟩ := p
    by_cases h : k' = k
    · simp [mapSet, h, mapGet]
    · simp [mapSet, h, mapGet, ih]

theorem mapGet_set_ne {α : Type} (m : List (String × α)) (k k' : String) (v : α)
    (h : k' ≠ k) : mapGet (mapSet m k v) k' = mapGet m k' := by
  have hkk : ¬ k = k' := fun hh => h hh.symm
  induction m with
  | nil => simp only [mapSet, mapGet, if_neg hkk]
  | cons p rest ih =>
    obtain ⟨k₀, v₀⟩ := p
    by_cases h₀ : k₀ = k
    · subst h₀
      simp only [mapSet, if_pos rfl, mapGet, if_neg hkk]
    · simp only [mapSet, if_neg h₀, mapGet]
      by_cases h₁ : k₀ = k'
      · simp only [if_pos h₁]
      · simp only [if_neg h₁, ih]

theorem mapGet_eq_none_of_not_mem_keys {α : Type} (m : List (String × α)) (k : String)
    (h : k ∉ m.map Prod.fst) : mapGet m k = none := by
  induction m with
  | nil => rfl
  | cons p rest ih =>
    obtain ⟨k', v'⟩ := p
    simp only [List.map_cons, List.mem_cons] at h
    push_neg at h
    have hne : ¬ k' = k := fun hh => h.1 hh.symm
    simp [mapGet, if_neg hne, ih h.2]

theorem mem_keys_of_mem_keys_set {α : Type} (m : List (String × α)) (k a : String) (v : α)
    (h : a ∈ (mapSet m k v).map Prod.fst) : a = k ∨ a ∈ m.map Prod.fst := by
  induction m with
  | nil => simpa [mapSet] using h
  | cons p rest ih =>
    obtain ⟨k₀, v₀⟩ := p
    by_cases h₀ : k₀ = k
    · simp only [mapSet, if_pos h₀, List.map_cons, List.mem_cons] at h
      rcases h with h | h
      · exact Or.inl h
      · exact Or.inr (by simp [h])
    · simp only [mapSet, if_neg h₀, List.map_cons, List.mem_cons] at h
      rcases h with h | h
      · exact Or.inr (by simp [h])
      · rcases ih h with h' | h'
        · exact Or.inl h'
        · exact Or.inr (by simp [h'])

theorem mapWF_set {α : Type} (m : List (String × α)) (k : String) (v : α)
    (h : mapWF m) : mapWF (mapSet m k v) := by
  induction m with
  | nil => simp [mapWF, mapSet]
  | cons p rest ih =>
    obtain ⟨k₀, v₀⟩ := p
    simp only [mapWF, List.map_cons, List.nodup_cons] at h
    by_cases h₀ : k₀ = k
    · subst h₀
      have hset : mapSet ((k₀, v₀) :: rest) k₀ v = (k₀, v) :: rest := by
        simp [mapSet]
      rw [hset]
      simp only [mapWF, List.map_cons, List.nodup_cons]
      exact h
    · simp only [mapWF, mapSet, if_neg h₀, List.map_cons, List.nodup_cons]
      refine ⟨fun hmem => ?_, ih h.2⟩
      rcases mem_keys_of_mem_keys_set rest k k₀ v hmem with h' | h'
      · exact h₀ h'
      · exact h.1 h'

theorem mapGet_delete_self_of_wf {α : Type} (m : List (String × α)) (k : String)
    (h : mapWF m) : mapGet (mapDelete m k) k = none := by
  induction m with
  | nil => rfl
  | cons p rest ih =>
    obtain ⟨k₀, v₀⟩ := p
    simp only [mapWF, List.map_cons, List.nodup_cons] at h
    by_cases h₀ : k₀ = k
    · subst h₀
      simp only [mapDelete, if_pos rfl]
      exact mapGet_eq_none_of_not_mem_keys rest k₀ h.1
    · simp [mapDelete, if_neg h₀, mapGet, h₀, ih h.2]

-- ------------------------------------------------------------------
-- Base64 and UTF-8 (the behavior of `Buffer.from(s, "utf-8").toString("base64")`).
-- ------------------------------------------------------------------

/-- The standard base64 alphabet. -/
def b64Alphabet : Chars :=
  str "ABCDEFGHIJKLMNOPQRSTUVWXYZabcdefghijklmnopqrstuvwxyz0123456789+/"

/-- Character for a 6-bit value. -/
def b64CharOf (n : Nat) : Char := b64Alphabet.getD n 'A'

/-- Index of a base64 character, if it is one. -/
def b64Index (c : Char) : Option Nat := b64Alphabet.findIdx? (fun c' => c' = c)

/-- Standard base64 encoding of a byte list (with `=` padding), as produced by
`Buffer.prototype.toString("base64")`. -/
def b64EncodeBytes : List Nat → Chars
  | [] => []
  | [a] => [b64CharOf (a / 4), b64CharOf (a % 4 * 16), '=', '=']
  | [a, b] => [b64CharOf (a / 4), b64CharOf (a % 4 * 16 + b / 16), b64CharOf (b % 16 * 4), '=']
  | a :: b :: c :: rest =>
    b64CharOf (a / 4) :: b64CharOf (a % 4 * 16 + b / 16) ::
      b64CharOf (b % 16 * 4 + c / 64) :: b64CharOf (c % 64) :: b64EncodeBytes rest

/-- Decoding of padded base64 text back into bytes (`none` on malformed input). -/
def b64DecodeChars : Chars → Option (List Nat)
  | [] => some []
  | [c1, c2, '=', '='] =>
    match b64Index c1, b64Index c2 with
    | some a, some b => some [a * 4 + b / 16]
    | _, _ => none
  | [c1, c2, c3, '='] =>
    match b64Index c1, b64Index c2, b64Index c3 with
    | some a, some b, some c => some [a * 4 + b / 16, b % 16 * 16 + c / 4]
    | _, _, _ => none
  | c1 :: c2 :: c3 :: c4 :: rest =>
    match b64Index c1, b64Index c2, b64Index c3, b64Index c4, b64DecodeChars rest with
    | some a, some b, some c, some d, some tail =>
      some ((a * 4 + b / 16) :: (b % 16 * 16 + c / 4) :: (c % 4 * 64 + d) :: tail)
    | _, _, _, _, _ => none
  | _ => none

/-- The URL-safe post-processing applied by both mail builders
(server.js lines 75-79 and 131-135):
plus becomes minus, slash becomes underscore, trailing padding is stripped. -/
def urlSafe (l : Chars) : Chars :=
  ((l.map (fun c => if c = '+' then '-' else if c = '/' then '_' else c)).reverse.dropWhile
    (fun c => c = '=')).reverse

/-- Decoding of the URL-safe form: reverse the character substitutions,
re-add the stripped padding, then base64-decode. -/
def urlSafeB64Decode (l : Chars) : Option (List Nat) :=
  let l' := l.map (fun c => if c = '-' then '+' else if c = '_' then '/' else c)
  match l'.length % 4 with
  | 0 => b64DecodeChars l'
  | 2 => b64DecodeChars (l' ++ ['=', '='])
  | 3 => b64DecodeChars (l' ++ ['='])
  | _ => none

/-- UTF-8 bytes of one unicode scalar. -/
def utf8EncodeChar (c : Char) : List Nat :=
  let n := c.toNat
  if n < 128 then [n]
  else if n < 2048 then [192 + n / 64, 128 + n % 64]
  else if n < 65536 then [224 + n / 4096, 128 + n / 64 % 64, 128 + n % 64]
  else [240 + n / 262144, 128 + n / 4096 % 64, 128 + n / 64 % 64, 128 + n % 64]

/-- `Buffer.from(s, "utf-8")`: UTF-8 byte serialization of a string. -/
def utf8Encode (l : Chars) : List Nat :=
  concatAll (l.map utf8EncodeChar)

-- ------------------------------------------------------------------
-- MIME message builders (server.js lines 56-136).
-- ------------------------------------------------------------------

/-- An attachment as carried in tool arguments and staging
(wire shape: name, MIME type, base64 data, size). -/
structure Attachment where
  name : Chars
  type : Chars
  data : Chars
  size : Nat
deriving DecidableEq, Repr

/-- Ambient inputs of the mail builders: the configured sender
(`process.env.GMAIL_USER`) and the current clock (`Date.now()`, milliseconds). -/
structure MailEnv where
  gmailUser : Chars
  now : Nat
deriving DecidableEq, Repr

/-- The HTML-detection regex test `/<[a-z][\s\S]*>/i.test(body)`
(server.js lines 59 and 104): is there a `<` followed by an ASCII letter
with a `>` anywhere later? -/
def isHtml : Chars → Bool
  | [] => false
  | '<' :: rest =>
    match rest with
    | [] => false
    | c :: rest' =>
      (((('a' ≤ c && c ≤ 'z') || ('A' ≤ c && c ≤ 'Z')) && rest'.contains '>')) || isHtml (c :: rest')
  | _ :: rest => isHtml rest

/-- Body content type chosen on server.js lines 59-60 (and 104-105). -/
def contentTypeOf (body : Chars) : Chars :=
  if isHtml body then str "text/html; charset=UTF-8" else str "text/plain; charset=UTF-8"

/-- The `messageParts` array of `createSimpleEmail` (server.js lines 62-73)
after `.filter(Boolean)`, which keeps exactly the non-empty strings:
note that it also removes the `""` entry meant as the header/body separator,
and the base64 body itself when `body` is empty. -/
def simpleEmailParts (user toAddr subject body : Chars) (cc bcc : List Chars) : List Chars :=
  ([ str "From: " ++ user,
     str "To: " ++ toAddr,
     if cc.length > 0 then str "Cc: " ++ joinWith (str ", ") cc else [],
     if bcc.length > 0 then str "Bcc: " ++ joinWith (str ", ") bcc else [],
     str "Subject: " ++ subject,
     str "MIME-Version: 1.0",
     str "Content-Type: " ++ contentTypeOf body ++ str "; charset=\"UTF-8\"",
     str "Content-Transfer-Encoding: base64",
     [],
     b64EncodeBytes (utf8Encode body) ]).filter (fun part => part ≠ [])

/-- The text joined on server.js line 75, before the outer base64 encoding. -/
def simpleEmailMessage (user toAddr subject body : Chars) (cc bcc : List Chars) : Chars :=
  joinWith CRLF (simpleEmailParts user toAddr subject body cc bcc)

/-- `createSimpleEmail` (server.js lines 56-80): join the filtered parts with
CRLF, base64-encode the whole text, and make it URL-safe. -/
def createSimpleEmail (env : MailEnv) (toAddr subject body : Chars) (cc bcc : List Chars) : Chars :=
  urlSafe (b64EncodeBytes (utf8Encode (simpleEmailMessage env.gmailUser toAddr subject body cc bcc)))

/-- Whether a character is matched by `.` in a JS regex without the `s` flag
(everything except the four line terminators). -/
def dotMatches (c : Char) : Bool :=
  !(c = '\n' || c = '\r' || c = Char.ofNat 8232 || c = Char.ofNat 8233)

/-- The successive matches of `/.{1,76}/g`: at a matching character, greedily
take up as many as 76 matching characters as one chunk; a non-matching character is
skipped. -/
def matchChunks : Chars → List Chars
  | [] => []
  | c :: rest =>
    if dotMatches c then
      (c :: (rest.takeWhile dotMatches).take 75) ::
        matchChunks (rest.drop ((rest.takeWhile dotMatches).take 75).length)
    else
      matchChunks rest
termination_by l => l.length
decreasing_by
  · simp only [List.length_cons, List.length_drop]
    omega
  · simp only [List.length_cons]
    omega

/-- `wrapBase64` (server.js lines 87-89):
`str.match(/.{1,76}/g)?.join(CRLF) || str`. -/
def wrapBase64 (s : Chars) : Chars :=
  match matchChunks s with
  | [] => s
  | chunks => joinWith CRLF chunks

/-- The data cleanup on server.js line 116 (and 1007, 1026):
`att.data.replace(/^data:[^;]+;base64,/, "")`. -/
def stripDataUri (l : Chars) : Chars :=
  if l.take 5 = str "data:" then
    let rest := l.drop 5
    let t := rest.takeWhile (fun c => c ≠ ';')
    if t ≠ [] && (rest.drop t.length).take 8 = str ";base64," then
      rest.drop (t.length + 8)
    else l
  else l

/-- The headers of one attachment part (server.js lines 118-121), up through and
including the blank line that separates them from the base64 payload. -/
def attPartHeaderOf (boundary : Chars) (att : Attachment) : Chars :=
  str "--" ++ boundary ++ CRLF ++
  str "Content-Type: " ++ att.type ++ str "; name=\"" ++ att.name ++ str "\"" ++ CRLF ++
  str "Content-Disposition: attachment; filename=\"" ++ att.name ++ str "\"" ++ CRLF ++
  str "Content-Transfer-Encoding: base64" ++ CRLF ++ CRLF

/-- One attachment part (server.js lines 117-122): headers, blank line, the
stripped and wrapped base64 payload, and two trailing CRLFs. -/
def attachmentPartOf (boundary : Chars) (att : Attachment) : Chars :=
  attPartHeaderOf boundary att ++ wrapBase64 (stripDataUri att.data) ++ CRLF ++ CRLF

/-- The boundary token of server.js line 84: `boundary_${Date.now()}`. -/
def boundaryOf (now : Nat) : Chars :=
  str "boundary_" ++ (Nat.repr now).data

/-- The header block of `createEmailWithAttachments` (server.js lines 92-100). -/
def attachHeaders (user toAddr subject : Chars) (cc bcc : List Chars) (boundary : Chars) : Chars :=
  joinWith CRLF
    (([ str "From: " ++ user,
        str "To: " ++ toAddr,
        if cc.length > 0 then str "Cc: " ++ joinWith (str ", ") cc else [],
        if bcc.length > 0 then str "Bcc: " ++ joinWith (str ", ") bcc else [],
        str "Subject: " ++ subject,
        str "MIME-Version: 1.0",
        str "Content-Type: multipart/mixed; boundary=\"" ++ boundary ++ str "\"" ]).filter
      (fun part => part ≠ []))

/-- The body part of the attachment path (server.js lines 107-111). -/
def bodyPartOf (boundary body : Chars) : Chars :=
  str "--" ++ boundary ++ CRLF ++
  str "Content-Type: " ++ contentTypeOf body ++ str "; charset=\"UTF-8\"" ++ CRLF ++
  str "Content-Transfer-Encoding: base64" ++ CRLF ++ CRLF ++
  b64EncodeBytes (utf8Encode body) ++ CRLF

/-- The `finalMessage` of server.js lines 125-129. -/
def attachFinalMessage (env : MailEnv) (toAddr subject body : Chars) (cc bcc : List Chars)
    (attachments : List Attachment) : Chars :=
  let boundary := boundaryOf env.now
  attachHeaders env.gmailUser toAddr subject cc bcc boundary ++ CRLF ++ CRLF ++
  bodyPartOf boundary body ++
  concatAll (attachments.map (attachmentPartOf boundary)) ++
  str "--" ++ boundary ++ str "--"

/-- `createEmailWithAttachments` (server.js lines 83-136). -/
def createEmailWithAttachments (env : MailEnv) (toAddr subject body : Chars) (cc bcc : List Chars)
    (attachments : List Attachment) : Chars :=
  urlSafe (b64EncodeBytes (utf8Encode (attachFinalMessage env toAddr subject body cc bcc attachments)))

-- ------------------------------------------------------------------
-- Attachment staging seen by the mail tools (server.js lines 141-246).
-- ------------------------------------------------------------------

/-- The scan of `conversationAttachments.entries()` shared by the two mail
tool handlers (server.js lines 148-153 and 202-207): walk the staged sets of
all sessions in map order and, at the first non-empty one, replace the
accumulated value and break. -/
def scanStaged : List (String × List Attachment) → List Attachment → List Attachment
  | [], acc => acc
  | (_, satts) :: rest, acc => if satts = [] then scanStaged rest acc else satts

/-- `finalAttachments` as computed by `sendEmailTool` (server.js lines
147-153): the explicit `attachments` argument (`undefined` defaulting via
`|| []`), overridden by the first non-empty staged set of any session. -/
def sendEmailFinalAttachments (explicit : Option (List Attachment))
    (conversationAttachments : List (String × List Attachment)) : List Attachment :=
  scanStaged conversationAttachments (explicit.getD [])

/-- `finalAttachments` as computed by `draftEmailTool` (server.js lines
201-207), the same scan duplicated in the draft handler. -/
def draftEmailFinalAttachments (explicit : Option (List Attachment))
    (conversationAttachments : List (String × List Attachment)) : List Attachment :=
  scanStaged conversationAttachments (explicit.getD [])

-- ------------------------------------------------------------------
-- Agent executor loop (server.js lines 891-921) and conversation handler
-- (server.js lines 924-967).
-- ------------------------------------------------------------------

/-- `maxIterations` as configured on the `AgentExecutor`
(server.js line 920). -/
def agentExecutorMaxIterations : Nat := 8

/-- What the reasoning backend returns for one round trip: a terminal answer,
or a request for a tool call with arguments. -/
inductive AgentStep where
  | finish : String → AgentStep
  | toolCall : String → String → AgentStep

/-- Outcome of the executor loop: a final answer, or the stop that the
library produces when the iteration cap is exhausted. -/
inductive AgentOutcome where
  | answer : String → AgentOutcome
  | stopped : String → AgentOutcome
deriving DecidableEq, Repr

/-- Modelled from the spec: the `AgentExecutor` Reasoning/ToolDispatch loop of
section 4.3 (its body lives in the external langchain library, not in this
repository; the repository only configures it, `maxIterations: 8`).  Given a
backend that maps the accumulated observations either a final answer or
one tool-call request, dispatch the requested tool, feed the observation
back, and stop when the iteration budget is exhausted.  Returns the outcome
together with the number of Reasoning-to-ToolDispatch round trips used. -/
def runAgentLoop (backend : List String → AgentStep) (dispatch : String → String → String) :
    List String → Nat → AgentOutcome × Nat
  | _, 0 => (AgentOutcome.stopped "Agent stopped due to max iterations.", 0)
  | obs, Nat.succ fuel =>
    match backend obs with
    | AgentStep.finish a => (AgentOutcome.answer a, 0)
    | AgentStep.toolCall name args =>
      let r := runAgentLoop backend dispatch (obs ++ [dispatch name args]) fuel
      (r.1, r.2 + 1)

/-- One conversation turn in a session history. -/
inductive Role where
  | user
  | assistant
deriving DecidableEq, Repr

/-- A history entry (`{role, content}` objects pushed on server.js
lines 955-956). -/
structure Turn where
  role : Role
  content : String
deriving DecidableEq, Repr

/-- The `{message, success}` value returned by `handleConversation`. -/
structure ChatResult where
  message : String
  success : Bool
deriving DecidableEq, Repr

/-- The module-level mutable state of server.js:
`conversationHistories` (line 29) and `conversationAttachments` (line 27). -/
structure AgentState where
  conversationHistories : List (String × List Turn)
  conversationAttachments : List (String × List Attachment)
deriving DecidableEq, Repr

/-- The history list of one session, empty when the session is unknown. -/
def getHistoryList (st : AgentState) (sessionId : String) : List Turn :=
  (mapGet st.conversationHistories sessionId).getD []

/-- `handleConversation` (server.js lines 924-967) as a state transition.
The `exec` parameter abstracts `await executor.invoke(...)`: `Except.ok out`
is a normal return with `result.output = out`, `Except.error e` is a thrown
error with message `e` (caught on lines 963-966).  Everything in the `try`
block before the `invoke` (creating an empty history for an unseen session,
staging non-empty attachments) happens in both cases; the history pushes and
the staged-attachment delete happen only when `invoke` returns normally. -/
def handleConversation (st : AgentState) (sessionId userMessage : String)
    (attachments : List Attachment) (exec : Except String String) :
    AgentState × ChatResult :=
  let histories0 :=
    if mapHas st.conversationHistories sessionId then st.conversationHistories
    else mapSet st.conversationHistories sessionId []
  let attachments0 :=
    if attachments = [] then st.conversationAttachments
    else mapSet st.conversationAttachments sessionId attachments
  let chatHistory := (mapGet histories0 sessionId).getD []
  match exec with
  | Except.error e =>
    (⟨histories0, attachments0⟩, ⟨"Error: " ++ e, false⟩)
  | Except.ok out =>
    let histories1 :=
      mapSet histories0 sessionId
        (chatHistory ++ [⟨Role.user, userMessage⟩, ⟨Role.assistant, out⟩])
    let attachments1 :=
      if mapHas attachments0 sessionId then mapDelete attachments0 sessionId else attachments0
    (⟨histories1, attachments1⟩, ⟨out, true⟩)

/-- Input of one conversation turn, with the abstracted executor outcome. -/
structure TurnEvent where
  sessionId : String
  message : String
  attachments : List Attachment
  exec : Except String String

/-- A sequence of conversation turns run through `handleConversation`. -/
def runTurns (st : AgentState) : List TurnEvent → AgentState
  | [] => st
  | e :: rest =>
    runTurns (handleConversation st e.sessionId e.message e.attachments e.exec).1 rest

/-- The turns a sequence of events appends for one session, in order: each
successful turn contributes its user turn then its assistant turn, a failed
turn contributes nothing. -/
def turnsAppended (sessionId : String) : List TurnEvent → List Turn
  | [] => []
  | e :: rest =>
    (if e.sessionId = sessionId then
      match e.exec with
      | Except.ok out => [⟨Role.user, e.message⟩, ⟨Role.assistant, out⟩]
      | Except.error _ => []
    else []) ++ turnsAppended sessionId rest

-- ------------------------------------------------------------------
-- The chat endpoint (server.js lines 1035-1046).
-- ------------------------------------------------------------------

/-- `POST /api/agent/chat` (server.js lines 1035-1046) as a function from the
request pieces and ambient state the status code, the response body and the
new state.  `unexpected` models an exception raised inside the `try` block by
the runtime itself (anything other than `handleConversation`, which never
throws); it is turned into a 500 response by the `catch` on lines 1043-1045.
A missing `message` or `sessionId` field is `none`; `""` is falsy in JS, so
it takes the same branches as a missing field. -/
def apiAgentChat (unexpected : Option String) (tokens : Option Unit) (st : AgentState)
    (message sessionId : Option String) (attachments : List Attachment)
    (exec : Except String String) (now : Nat) : Nat × ChatResult × AgentState :=
  match unexpected with
  | some e => (500, ⟨e, false⟩, st)
  | none =>
    if message.getD "" = "" then
      (400, ⟨"Message required", false⟩, st)
    else if tokens.isNone then
      (401, ⟨"⚠️ Connect Google account first", false⟩, st)
    else
      let sid :=
        if sessionId.getD "" = "" then "session_" ++ Nat.repr now else sessionId.getD ""
      let pr := handleConversation st sid (message.getD "") attachments exec
      (200, pr.2, pr.1)

-- ------------------------------------------------------------------
-- Spec-side notions used to state the MIME claims.
-- ------------------------------------------------------------------

/-- Whether `pat` occurs as a contiguous run inside `l`. -/
def containsSeq {α : Type} [DecidableEq α] (pat : List α) : List α → Bool
  | [] => pat.isEmpty
  | a :: rest => pat.isPrefixOf (a :: rest) || containsSeq pat rest

/-- Modelled from the spec: isolating the body section of a decoded message,
i.e. everything after the first blank line (the first CRLF-CRLF byte run);
`none` when the message has no blank line at all. -/
def isolateBodyBytes : List Nat → Option (List Nat)
  | [] => none
  | b :: rest =>
    if [13, 10, 13, 10].isPrefixOf (b :: rest) then some ((b :: rest).drop 4)
    else isolateBodyBytes rest

/-- Plain division of a string into chunks of 76 characters
(the last one possibly shorter). -/
def chunksOf76 : Chars → List Chars
  | [] => []
  | c :: rest => (c :: rest.take 75) :: chunksOf76 (rest.drop 75)
termination_by l => l.length
decreasing_by
  simp only [List.length_cons, List.length_drop]
  omega

theorem takeWhile_eq_self_of_all {α : Type} (p : α → Bool) (l : List α)
    (h : ∀ a ∈ l, p a = true) : l.takeWhile p = l := by
  induction l with
  | nil => rfl
  | cons a rest ih =>
    have ha : p a = true := h a (by simp)
    simp [List.takeWhile_cons, ha, ih (fun b hb => h b (by simp [hb]))]

theorem matchChunks_eq_chunksOf76 (l : Chars) (h : ∀ c ∈ l, dotMatches c = true) :
    matchChunks l = chunksOf76 l := by
  induction l using chunksOf76.induct with
  | case1 => simp [matchChunks, chunksOf76]
  | case2 c rest ih =>
    have hc : dotMatches c = true := h c (by simp)
    have hrest : rest.takeWhile dotMatches = rest :=
      takeWhile_eq_self_of_all _ _ (fun b hb => h b (by simp [hb]))
    have hdroplen : rest.drop (rest.take 75).length = rest.drop 75 := by
      rcases le_or_lt rest.length 75 with hle | hlt
      · rw [List.take_of_length_le hle]
        rw [List.drop_of_length_le (le_refl _), List.drop_of_length_le hle]
      · rw [List.length_take, Nat.min_eq_left (le_of_lt hlt)]
    rw [matchChunks, chunksOf76, if_pos hc, hrest, hdroplen,
      ih (fun b hb => h b (by simp [List.mem_of_mem_drop hb]))]

theorem concatAll_chunksOf76 (l : Chars) : concatAll (chunksOf76 l) = l := by
  induction l using chunksOf76.induct with
  | case1 => simp [chunksOf76, concatAll]
  | case2 c rest ih =>
    rw [chunksOf76, concatAll, ih]
    simp [List.take_append_drop]

theorem length_le_of_mem_chunksOf76 (l : Chars) (ch : Chars) (h : ch ∈ chunksOf76 l) :
    ch.length ≤ 76 := by
  induction l using chunksOf76.induct generalizing ch with
  | case1 => simp [chunksOf76] at h
  | case2 c rest ih =>
    rw [chunksOf76] at h
    rcases List.mem_cons.mp h with h' | h'
    · subst h'
      simp only [List.length_cons, List.length_take]
      omega
    · exact ih ch h'

-- ------------------------------------------------------------------
-- Helper lemmas about the handlers.
-- ------------------------------------------------------------------

theorem scanStaged_first_nonempty (pre post : List (String × List Attachment))
    (sid : String) (l : List Attachment) (acc : List Attachment)
    (hpre : ∀ p ∈ pre, p.2 = ([] : List Attachment)) (hl : l ≠ []) :
    scanStaged (pre ++ (sid, l) :: post) acc = l := by
  induction pre with
  | nil => simp [scanStaged, hl]
  | cons p rest ih =>
    obtain ⟨s0, a0⟩ := p
    have h0 : a0 = ([] : List Attachment) := hpre (s0, a0) (by simp)
    subst h0
    simp only [List.cons_append, scanStaged, if_pos rfl]
    exact ih (fun q hq => hpre q (by simp [hq]))

theorem getHistoryList_handleConversation (st : AgentState) (sid msg : String)
    (atts : List Attachment) (exec : Except String String) (s : String) :
    getHistoryList (handleConversation st sid msg atts exec).1 s =
      getHistoryList st s ++
        (if sid = s then
          match exec with
          | Except.ok out => [⟨Role.user, msg⟩, ⟨Role.assistant, out⟩]
          | Except.error _ => []
        else []) := by
  have hhist0 : ∀ q : String,
      ((mapGet (if mapHas st.conversationHistories sid then st.conversationHistories
        else mapSet st.conversationHistories sid []) q).getD []) = getHistoryList st q := by
    intro q
    by_cases hhas : mapHas st.conversationHistories sid
    · rw [if_pos hhas]; rfl
    · rw [if_neg hhas]
      by_cases hq : q = sid
      · subst hq
        rw [mapGet_set_self]
        have : mapGet st.conversationHistories q = none := by
          simp only [mapHas, Option.isSome] at hhas
          rcases hmg : mapGet st.conversationHistories q with _ | v
          · rfl
          · rw [hmg] at hhas; simp at hhas
        rw [getHistoryList, this]
        rfl
      · rw [mapGet_set_ne _ _ _ _ hq]; rfl
  cases exec with
  | error e =>
    show (mapGet (if mapHas st.conversationHistories sid then st.conversationHistories
        else mapSet st.conversationHistories sid []) s).getD [] =
      getHistoryList st s ++ (if sid = s then ([] : List Turn) else [])
    simp only [ite_self, List.append_nil]
    exact hhist0 s
  | ok out =>
    show (mapGet (mapSet
        (if mapHas st.conversationHistories sid then st.conversationHistories
          else mapSet st.conversationHistories sid []) sid
        ((mapGet (if mapHas st.conversationHistories sid then st.conversationHistories
          else mapSet st.conversationHistories sid []) sid).getD [] ++
          [⟨Role.user, msg⟩, ⟨Role.assistant, out⟩])) s).getD [] =
      getHistoryList st s ++
        (if sid = s then [⟨Role.user, msg⟩, ⟨Role.assistant, out⟩] else [])
    by_cases hs : sid = s
    · subst hs
      rw [mapGet_set_self, if_pos rfl]
      simp only [Option.getD_some]
      rw [hhist0 sid]
    · rw [mapGet_set_ne _ _ _ _ (fun hh => hs hh.symm), if_neg hs]
      simp only [List.append_nil]
      exact hhist0 s

theorem attachments_handleConversation_error (st : AgentState) (sid msg : String)
    (atts : List Attachment) (e : String) :
    (handleConversation st sid msg atts (Except.error e)).1.conversationAttachments =
      (if atts = [] then st.conversationAttachments
       else mapSet st.conversationAttachments sid atts) := rfl

-- ------------------------------------------------------------------
-- The claims.
-- ------------------------------------------------------------------

/-- C1: whenever any session (not only the invoking one) has a non-empty
staged attachment set, both the mail-sending and the draft-creation handler
use the first such set found in map order as `finalAttachments`, whatever
attachments were passed explicitly in the tool arguments. -/
theorem claim_C1_staged_scan_overrides (explicit : Option (List Attachment))
    (pre post : List (String × List Attachment)) (sid : String) (l : List Attachment)
    (hpre : ∀ p ∈ pre, p.2 = ([] : List Attachment)) (hl : l ≠ []) :
    sendEmailFinalAttachments explicit (pre ++ (sid, l) :: post) = l ∧
    draftEmailFinalAttachments explicit (pre ++ (sid, l) :: post) = l :=
  ⟨scanStaged_first_nonempty pre post sid l (explicit.getD []) hpre hl,
   scanStaged_first_nonempty pre post sid l (explicit.getD []) hpre hl⟩

/-- Witness for C1: with one file staged by a different session, the mail
tool drops the explicitly passed attachment list and uses the staged one. -/
theorem claim_C1_witness :
    sendEmailFinalAttachments (some [⟨str "mine.txt", str "text/plain", str "QQ==", 1⟩])
        [("otherSession", [⟨str "theirs.png", str "image/png", str "Qg==", 1⟩])] =
      [⟨str "theirs.png", str "image/png", str "Qg==", 1⟩] ∧
    draftEmailFinalAttachments (some [⟨str "mine.txt", str "text/plain", str "QQ==", 1⟩])
        [("otherSession", [⟨str "theirs.png", str "image/png", str "Qg==", 1⟩])] =
      [⟨str "theirs.png", str "image/png", str "Qg==", 1⟩] :=
  claim_C1_staged_scan_overrides
    (some [⟨str "mine.txt", str "text/plain", str "QQ==", 1⟩]) [] []
    "otherSession" [⟨str "theirs.png", str "image/png", str "Qg==", 1⟩]
    (by simp) (by decide)

/-- C2 counterexample: a turn that stages one attachment and whose executor
run throws leaves the staged set in place after the turn, contradicting the
claim that it is removed regardless of success or failure. -/
theorem claim_C2_counterexample :
    mapGet (handleConversation ⟨[], []⟩ "s" "hi"
        [⟨str "f.txt", str "text/plain", str "QUJD", 3⟩]
        (Except.error "backend down")).1.conversationAttachments "s" =
      some [⟨str "f.txt", str "text/plain", str "QUJD", 3⟩] := by decide

/-- C2 as amended: the staged set of the invoking session is removed when the
executor run returns normally; when the executor throws, the set staged by
the turn is still present afterwards. -/
theorem claim_C2_staged_removed_only_on_success (st : AgentState) (sid msg : String)
    (atts : List Attachment) (out e : String) (hwf : mapWF st.conversationAttachments) :
    mapGet (handleConversation st sid msg atts
        (Except.ok out)).1.conversationAttachments sid = none ∧
    mapGet (handleConversation st sid msg atts
        (Except.error e)).1.conversationAttachments sid =
      (if atts = [] then mapGet st.conversationAttachments sid else some atts) := by
  constructor
  · show mapGet
      (if mapHas (if atts = [] then st.conversationAttachments
          else mapSet st.conversationAttachments sid atts) sid then
        mapDelete (if atts = [] then st.conversationAttachments
          else mapSet st.conversationAttachments sid atts) sid
      else (if atts = [] then st.conversationAttachments
          else mapSet st.conversationAttachments sid atts)) sid = none
    by_cases hatts : atts = []
    · rw [if_pos hatts]
      by_cases hhas : mapHas st.conversationAttachments sid
      · rw [if_pos hhas]
        exact mapGet_delete_self_of_wf _ _ hwf
      · rw [if_neg hhas]
        simp only [mapHas, Option.isSome] at hhas
        rcases hmg : mapGet st.conversationAttachments sid with _ | v
        · rfl
        · rw [hmg] at hhas; simp at hhas
    · rw [if_neg hatts]
      have hhas : mapHas (mapSet st.conversationAttachments sid atts) sid = true := by
        simp [mapHas, mapGet_set_self]
      rw [if_pos hhas]
      exact mapGet_delete_self_of_wf _ _ (mapWF_set _ _ _ hwf)
  · rw [attachments_handleConversation_error]
    by_cases hatts : atts = []
    · rw [if_pos hatts, if_pos hatts]
    · rw [if_neg hatts, if_neg hatts, mapGet_set_self]

/-- Witness for C2's amended statement, at the empty initial state. -/
theorem claim_C2_witness :
    mapGet (handleConversation ⟨[], []⟩ "w" "msg"
        [⟨str "a.txt", str "text/plain", str "QQ==", 1⟩]
        (Except.ok "done")).1.conversationAttachments "w" = none ∧
    mapGet (handleConversation ⟨[], []⟩ "w" "msg"
        [⟨str "a.txt", str "text/plain", str "QQ==", 1⟩]
        (Except.error "down")).1.conversationAttachments "w" =
      (if [⟨str "a.txt", str "text/plain", str "QQ==", 1⟩] = ([] : List Attachment) then
        mapGet ([] : List (String × List Attachment)) "w"
      else some [⟨str "a.txt", str "text/plain", str "QQ==", 1⟩]) :=
  claim_C2_staged_removed_only_on_success ⟨[], []⟩ "w" "msg"
    [⟨str "a.txt", str "text/plain", str "QQ==", 1⟩] "done" "down" (by simp [mapWF])

/-- C7: when the executor run throws, `handleConversation` returns the error
message with `success: false` and leaves every session's history unchanged -
neither the user's turn nor an assistant turn is appended. -/
theorem claim_C7_reasoning_failure_leaves_history (st : AgentState) (sid msg : String)
    (atts : List Attachment) (e s : String) :
    (handleConversation st sid msg atts (Except.error e)).2 =
      ⟨"Error: " ++ e, false⟩ ∧
    getHistoryList (handleConversation st sid msg atts (Except.error e)).1 s =
      getHistoryList st s := by
  refine ⟨rfl, ?_⟩
  rw [getHistoryList_handleConversation]
  simp [ite_self]

/-- C8: session histories grow append-only.  A successful turn appends
exactly one user turn followed by one assistant turn at the end of the
invoking session's history, and over any sequence of turns the resulting
history is the initial history followed by the per-session turns in exactly
append order - nothing is reordered, mutated or dropped. -/
theorem claim_C8_history_append_order :
    (∀ (st : AgentState) (sid msg : String) (atts : List Attachment) (out : String),
      getHistoryList (handleConversation st sid msg atts (Except.ok out)).1 sid =
        getHistoryList st sid ++ [⟨Role.user, msg⟩, ⟨Role.assistant, out⟩]) ∧
    (∀ (st : AgentState) (events : List TurnEvent) (sid : String),
      getHistoryList (runTurns st events) sid =
        getHistoryList st sid ++ turnsAppended sid events) := by
  constructor
  · intro st sid msg atts out
    rw [getHistoryList_handleConversation]
    simp
  · intro st events
    induction events generalizing st with
    | nil => intro sid; simp [runTurns, turnsAppended]
    | cons e rest ih =>
      intro sid
      rw [runTurns, turnsAppended, ih, getHistoryList_handleConversation,
        List.append_assoc]

theorem runAgentLoop_rounds_le (backend : List String → AgentStep)
    (dispatch : String → String → String) (fuel : Nat) :
    ∀ obs : List String, (runAgentLoop backend dispatch obs fuel).2 ≤ fuel := by
  induction fuel with
  | zero => intro obs; simp [runAgentLoop]
  | succ n ih =>
    intro obs
    cases hb : backend obs with
    | finish a => simp [runAgentLoop, hb]
    | toolCall nm args =>
      simp only [runAgentLoop, hb]
      exact Nat.succ_le_succ (ih _)

theorem runAgentLoop_stopped_of_always_toolCall (backend : List String → AgentStep)
    (dispatch : String → String → String)
    (hb : ∀ o, ∃ n a, backend o = AgentStep.toolCall n a) (fuel : Nat) :
    ∀ obs : List String, runAgentLoop backend dispatch obs fuel =
      (AgentOutcome.stopped "Agent stopped due to max iterations.", fuel) := by
  induction fuel with
  | zero => intro obs; rfl
  | succ n ih =>
    intro obs
    obtain ⟨nm, a, h⟩ := hb obs
    simp [runAgentLoop, h, ih]

/-- C5: in every attachment part built by the attachment-path envelope
builder, the base64 payload between the part headers and the trailing CRLFs
is exactly the attachment's data with any leading data-URI prefix stripped,
re-divided into CRLF-separated lines of at most 76 characters whose
concatenation is the stripped data (stated for data that, after stripping,
is line-terminator-free ASCII, as base64 text is). -/
theorem claim_C5_attachment_payload_wrapped (boundary : Chars) (att : Attachment)
    (h : ∀ c ∈ stripDataUri att.data, c.toNat < 128 ∧ c ≠ '\n' ∧ c ≠ '\r') :
    ∃ lines : List Chars,
      attachmentPartOf boundary att =
        attPartHeaderOf boundary att ++ joinWith CRLF lines ++ CRLF ++ CRLF ∧
      (∀ l ∈ lines, l.length ≤ 76) ∧
      concatAll lines = stripDataUri att.data := by
  have hdm : ∀ c ∈ stripDataUri att.data, dotMatches c = true := by
    intro c hc
    obtain ⟨h1, h2, h3⟩ := h c hc
    have h4 : c ≠ Char.ofNat 8232 := by
      intro he
      rw [he] at h1
      exact absurd h1 (by decide)
    have h5 : c ≠ Char.ofNat 8233 := by
      intro he
      rw [he] at h1
      exact absurd h1 (by decide)
    simp [dotMatches, h2, h3, h4, h5]
  have hmc := matchChunks_eq_chunksOf76 (stripDataUri att.data) hdm
  have hw : wrapBase64 (stripDataUri att.data) =
      joinWith CRLF (chunksOf76 (stripDataUri att.data)) := by
    unfold wrapBase64
    rw [hmc]
    cases hcl : stripDataUri att.data with
    | nil => simp [chunksOf76, joinWith]
    | cons c r => rw [chunksOf76]
  refine ⟨chunksOf76 (stripDataUri att.data), ?_,
    fun l hl => length_le_of_mem_chunksOf76 _ l hl,
    concatAll_chunksOf76 _⟩
  unfold attachmentPartOf
  rw [hw]

/-- Witness for C5: a concrete data-URI-prefixed attachment. -/
theorem claim_C5_witness :
    (∀ c ∈ stripDataUri (str "data:text/plain;base64,SGVsbG8="),
      c.toNat < 128 ∧ c ≠ '\n' ∧ c ≠ '\r') ∧
    (∃ lines : List Chars,
      attachmentPartOf (str "boundary_0")
          ⟨str "f.txt", str "text/plain", str "data:text/plain;base64,SGVsbG8=", 5⟩ =
        attPartHeaderOf (str "boundary_0")
          ⟨str "f.txt", str "text/plain", str "data:text/plain;base64,SGVsbG8=", 5⟩ ++
          joinWith CRLF lines ++ CRLF ++ CRLF ∧
      (∀ l ∈ lines, l.length ≤ 76) ∧
      concatAll lines = stripDataUri (str "data:text/plain;base64,SGVsbG8=")) :=
  ⟨by decide,
   claim_C5_attachment_payload_wrapped (str "boundary_0")
     ⟨str "f.txt", str "text/plain", str "data:text/plain;base64,SGVsbG8=", 5⟩
     (by decide)⟩

/-- C6: with the source's configured cap of 8, the executor loop performs at
most 8 Reasoning-to-ToolDispatch round trips, and against a backend that
always requests another tool call it stops after exactly 8 with the stopped
outcome instead of looping. -/
theorem claim_C6_iteration_cap (backend : List String → AgentStep)
    (dispatch : String → String → String) (obs : List String) :
    (runAgentLoop backend dispatch obs agentExecutorMaxIterations).2 ≤ 8 ∧
    ((∀ o, ∃ n a, backend o = AgentStep.toolCall n a) →
      runAgentLoop backend dispatch obs agentExecutorMaxIterations =
        (AgentOutcome.stopped "Agent stopped due to max iterations.", 8)) :=
  ⟨runAgentLoop_rounds_le backend dispatch agentExecutorMaxIterations obs,
   fun hb => runAgentLoop_stopped_of_always_toolCall backend dispatch hb
     agentExecutorMaxIterations obs⟩

/-- Witness for C6: a backend that always asks for one more tool call. -/
theorem claim_C6_witness :
    runAgentLoop (fun _ => AgentStep.toolCall "send_email" "args")
        (fun _ _ => "observation") [] agentExecutorMaxIterations =
      (AgentOutcome.stopped "Agent stopped due to max iterations.", 8) :=
  (claim_C6_iteration_cap (fun _ => AgentStep.toolCall "send_email" "args")
    (fun _ _ => "observation") []).2 (fun _ => ⟨"send_email", "args", rfl⟩)

/-- C9: the chat endpoint answers 400 when the message field is missing (or
falsy), 401 when no Google tokens are stored, 500 with a
message/success-false body when the surrounding try block throws, and
otherwise 200 with exactly the `{message, success}` result produced by
`handleConversation`. -/
theorem claim_C9_chat_endpoint_statuses :
    (∀ (tokens : Option Unit) (st : AgentState) (ms sid : Option String)
        (atts : List Attachment) (exec : Except String String) (now : Nat) (e : String),
      apiAgentChat (some e) tokens st ms sid atts exec now = (500, ⟨e, false⟩, st)) ∧
    (∀ (tokens : Option Unit) (st : AgentState) (sid : Option String)
        (atts : List Attachment) (exec : Except String String) (now : Nat),
      apiAgentChat none tokens st none sid atts exec now =
        (400, ⟨"Message required", false⟩, st)) ∧
    (∀ (st : AgentState) (m : String) (sid : Option String) (atts : List Attachment)
        (exec : Except String String) (now : Nat), m ≠ "" →
      apiAgentChat none none st (some m) sid atts exec now =
        (401, ⟨"⚠️ Connect Google account first", false⟩, st)) ∧
    (∀ (st : AgentState) (m : String) (sid : Option String) (atts : List Attachment)
        (exec : Except String String) (now : Nat), m ≠ "" →
      (apiAgentChat none (some ()) st (some m) sid atts exec now).1 = 200 ∧
      (apiAgentChat none (some ()) st (some m) sid atts exec now).2.1 =
        (handleConversation st
          (if sid.getD "" = "" then "session_" ++ Nat.repr now else sid.getD "")
          m atts exec).2) := by
  refine ⟨fun _ _ _ _ _ _ _ _ => rfl, fun _ _ _ _ _ _ => rfl, ?_, ?_⟩
  · intro st m sid atts exec now hm
    unfold apiAgentChat
    rw [if_neg (by simpa using hm)]
    rfl
  · intro st m sid atts exec now hm
    constructor
    · show (apiAgentChat none (some ()) st (some m) sid atts exec now).1 = 200
      unfold apiAgentChat
      rw [if_neg (by simpa using hm)]
      rfl
    · show (apiAgentChat none (some ()) st (some m) sid atts exec now).2.1 = _
      unfold apiAgentChat
      rw [if_neg (by simpa using hm)]
      rfl

/-- Witness for C9: concrete requests hitting the 401 and 200 branches. -/
theorem claim_C9_witness :
    apiAgentChat none none ⟨[], []⟩ (some "hi") none [] (Except.ok "done") 7 =
      (401, ⟨"⚠️ Connect Google account first", false⟩, (⟨[], []⟩ : AgentState)) ∧
    (apiAgentChat none (some ()) ⟨[], []⟩ (some "hi") none [] (Except.ok "done") 7).1 =
      200 :=
  ⟨claim_C9_chat_endpoint_statuses.2.2.1 ⟨[], []⟩ "hi" none [] (Except.ok "done") 7
     (by decide),
   (claim_C9_chat_endpoint_statuses.2.2.2 ⟨[], []⟩ "hi" none [] (Except.ok "done") 7
     (by decide)).1⟩

/-- C10: for a fixed configured sender the no-attachment builder is a pure
function of its arguments - its output is invariant under the clock - while
the attachment-path builder does depend on the clock through its boundary
token. -/
theorem claim_C10_simple_email_deterministic :
    (∀ (u : Chars) (n1 n2 : Nat) (toAddr subject body : Chars) (cc bcc : List Chars),
      createSimpleEmail ⟨u, n1⟩ toAddr subject body cc bcc =
        createSimpleEmail ⟨u, n2⟩ toAddr subject body cc bcc) ∧
    (∃ (u : Chars) (n1 n2 : Nat) (toAddr subject body : Chars) (cc bcc : List Chars)
        (atts : List Attachment),
      createEmailWithAttachments ⟨u, n1⟩ toAddr subject body cc bcc atts ≠
        createEmailWithAttachments ⟨u, n2⟩ toAddr subject body cc bcc atts) := by
  constructor
  · intro u n1 n2 toAddr subject body cc bcc
    rfl
  · exact ⟨str "u", 0, 1, str "t", [], [], [], [], [], by decide⟩

/-- C3 (code bug): at the concrete input (to a@x.com, subject Hi, body Hello,
no cc/bcc, sender me@x.com), the no-attachment builder's output base64-decodes
to the joined message text, but that text contains no blank line at all - the
`""` separator element of `messageParts` is removed by `.filter(Boolean)` -
so the header block is not followed by a blank line and then the base64 body
as the claim requires; with an empty body even the base64 body element is
dropped, leaving just the six header lines. -/
theorem claim_C3_no_blank_line_before_body :
    urlSafeB64Decode (createSimpleEmail ⟨str "me@x.com", 0⟩ (str "a@x.com") (str "Hi")
        (str "Hello") [] []) =
      some (utf8Encode (simpleEmailMessage (str "me@x.com") (str "a@x.com") (str "Hi")
        (str "Hello") [] [])) ∧
    containsSeq (CRLF ++ CRLF) (simpleEmailMessage (str "me@x.com") (str "a@x.com")
        (str "Hi") (str "Hello") [] []) = false ∧
    (simpleEmailParts (str "me@x.com") (str "a@x.com") (str "Hi") [] [] []).length = 6 := by
  refine ⟨by decide, by decide, by decide⟩

/-- C4 (code bug): the round-trip fails on the no-attachment path - the
decoded output of `createSimpleEmail` at a concrete input exists but has no
blank-line separator, so no body section can be isolated from it (while the
attachment-path message does contain the blank-line separator). -/
theorem claim_C4_body_section_not_isolable :
    (urlSafeB64Decode (createSimpleEmail ⟨str "me@x.com", 0⟩ (str "b@y.com") (str "Yo")
        (str "Hey") [] [])).isSome = true ∧
    Option.bind (urlSafeB64Decode (createSimpleEmail ⟨str "me@x.com", 0⟩ (str "b@y.com")
        (str "Yo") (str "Hey") [] [])) isolateBodyBytes = none ∧
    containsSeq (CRLF ++ CRLF) (attachFinalMessage ⟨str "me@x.com", 0⟩ (str "b@y.com")
        (str "Yo") (str "Hey") [] [] []) = true := by
  refine ⟨by decide, by decide, by decide⟩
